import Mathlib

/-!
Verification of the Google AI module of GPT-Telegramus (`GoogleAIModule.py`).

The Python source is shallowly embedded: every stateful operation is an
explicit state-passing Lean function, external effects (model stream, wall
clock, file system, message sender, user-record store) are modelled by an
environment record and an event trace, and the process-shared
`cancel_requested` flag is modelled by a schedule `Nat → Bool` giving the
value observed at each successive read of the flag inside one request.
JSON serialization of a conversation document is modelled as the identity
on well-formed documents, with a `corrupt` file state standing for contents
that `json.load` fails to deserialize.
-/

namespace GoogleAI

/-- One content part of a turn or chunk (`google.ai.generativelanguage.Part`):
an optional `text` field and an optional `inline_data` payload. -/
structure Part where
  text : Option String
  inline_data : Option String
deriving DecidableEq, Repr

/-- A role-tagged turn (`google.ai.generativelanguage.Content`). -/
structure Content where
  role : String
  parts : List Part
deriving DecidableEq, Repr

/-- The JSON serialization of a `Content` (`Content.to_json` output); modelled
as the `Content` itself since `to_json` is injective with inverse `from_json`. -/
abbrev ContentJson := Content

/-- `Content.to_json` (serialization modelled as the identity). -/
def Content.to_json (c : Content) : ContentJson := c

/-- `Content.from_json` (deserialization modelled as the identity). -/
def Content.from_json (j : ContentJson) : Content := j

/-- A conversation document as stored in one `<id>.json` file: the ordered
list of serialized turns. -/
abbrev ConvDoc := List ContentJson

/-- Contents of one conversation file: either a well-formed document or
bytes that `json.load` rejects. -/
inductive FileData where
  | good (doc : ConvDoc)
  | corrupt
deriving DecidableEq, Repr

/-- The conversations directory as an association list from file name to file
contents; later entries shadow earlier ones. -/
abbrev FS := List (String × FileData)

/-- Look a file up in the directory. -/
def fsLookup : FS → String → Option FileData
  | [], _ => none
  | (k, d) :: rest, f => if k = f then some d else fsLookup rest f

/-- Create or overwrite a file. -/
def fsWrite (fs : FS) (f : String) (d : FileData) : FS := (f, d) :: fs

/-- Remove a file. -/
def fsErase (fs : FS) (f : String) : FS := fs.filter (fun p => decide (p.1 ≠ f))

/-- `os.path.join(conversations_dir, conversation_id + ".json")`. -/
def conversation_file (conversations_dir conversation_id : String) : String :=
  conversations_dir ++ "/" ++ conversation_id ++ ".json"

/-- The per-module slice of the user record: the `lang` key (default 0) and
the `<config_key>_conversation_id` key. -/
structure UserRec where
  lang : Nat
  conversation_id : Option String
deriving DecidableEq, Repr

/-- `RequestResponseContainer`: request text, optional image URL, the mutable
response accumulator and error flag, and the owning user record. -/
structure RequestResponseContainer where
  user : UserRec
  request : String
  image_url : Option String
  response : String
  error : Bool
deriving DecidableEq, Repr

/-- One streamed response chunk. -/
structure Chunk where
  parts : List Part
deriving DecidableEq, Repr

/-- The text of the first part of a chunk, if any: the loop skips a chunk
iff `len(chunk.parts) < 1 or "text" not in chunk.parts[0]`. -/
def Chunk.first_part_text (c : Chunk) : Option String :=
  match c.parts with
  | [] => none
  | p :: _ => p.text

/-- Observable events emitted by one invocation, in order. -/
inductive Event where
  | sleep (d : ℚ)
  | timestamp_update (t : ℚ)
  | conv_read (file : String)
  | model_call (vision : Bool)
  | relay (snapshot : String) (is_end : Bool)
  | conv_write (file : String)
  | conv_delete (file : String)
  | save_user (u : UserRec)
deriving DecidableEq, Repr

/-- Event classifiers. -/
def Event.is_ts_update : Event → Bool
  | .timestamp_update _ => true
  | _ => false

def Event.is_model_call : Event → Bool
  | .model_call _ => true
  | _ => false

def Event.is_partial_relay : Event → Bool
  | .relay _ e => !e
  | _ => false

def Event.is_final_relay : Event → Bool
  | .relay _ e => e
  | _ => false

def Event.is_conv_read : Event → Bool
  | .conv_read _ => true
  | _ => false

def Event.is_conv_write : Event → Bool
  | .conv_write _ => true
  | _ => false

def Event.is_save_user : Event → Bool
  | .save_user _ => true
  | _ => false

/-- Number of events in a trace matching a classifier. -/
def countEv (p : Event → Bool) (evs : List Event) : Nat := (evs.filter p).length

/-- `_load_conversation(conversations_dir, conversation_id)` (lines 251-276):
`None` identifier, missing file and deserialization failure all yield `None`
(the exception is caught and logged, never re-raised). -/
def _load_conversation (fs : FS) (conversations_dir : String)
    (conversation_id : Option String) : Option ConvDoc :=
  match conversation_id with
  | none => none
  | some cid =>
    match fsLookup fs (conversation_file conversations_dir cid) with
    | some (FileData.good doc) => some doc
    | some FileData.corrupt => none
    | none => none

/-- The call site `_load_conversation(...) or []` (line 188). -/
def load_or_empty (fs : FS) (conversations_dir : String)
    (conversation_id : Option String) : ConvDoc :=
  (_load_conversation fs conversations_dir conversation_id).getD []

/-- `_save_conversation(conversations_dir, conversation_id, conversation)`
(lines 279-302): returns `false` on a `None` identifier or an I/O error while
dumping (an interrupted dump leaves the file corrupt); `true` otherwise. -/
def _save_conversation (fs : FS) (conversations_dir : String)
    (conversation_id : Option String) (conversation : ConvDoc)
    (io_error : Bool) : FS × Bool :=
  match conversation_id with
  | none => (fs, false)
  | some cid =>
    if io_error then
      (fsWrite fs (conversation_file conversations_dir cid) FileData.corrupt, false)
    else
      (fsWrite fs (conversation_file conversations_dir cid) (FileData.good conversation), true)

/-- `_delete_conversation(conversations_dir, conversation_id)` (lines
305-326): removes the file when it exists; a missing file is not an error. -/
def _delete_conversation (fs : FS) (conversations_dir : String)
    (conversation_id : String) (io_error : Bool) : FS × Bool :=
  match fsLookup fs (conversation_file conversations_dir conversation_id) with
  | none => (fs, true)
  | some _ =>
    if io_error then (fs, false)
    else (fsErase fs (conversation_file conversations_dir conversation_id), true)

/-- Static configuration read by `process_request`: the conversations
directory, the cooldown, and the localized
`messages[lang]["response_error"]` template already applied to the module
error text. -/
structure Config where
  conversations_dir : String
  cooldown_seconds : ℚ
  response_error : Nat → String

/-- `clear_conversation_for_user(user)` (lines 232-248): no-op when the user
has no conversation id; otherwise deletes the file, nulls the id field and
saves the user record. -/
def clear_conversation_for_user (cfg : Config) (fs : FS) (user : UserRec)
    (io_error : Bool) : FS × UserRec × List Event :=
  match user.conversation_id with
  | none => (fs, user, [])
  | some cid =>
    let d := _delete_conversation fs cfg.conversations_dir cid io_error
    let user2 : UserRec := { user with conversation_id := none }
    (d.1, user2,
      [Event.conv_delete (conversation_file cfg.conversations_dir cid),
       Event.save_user user2])

/-- Per-process module state: `self._enabled`, `self.processing_flag.value`
and `self._last_request_time.value`. -/
structure ModuleState where
  enabled : Bool
  processing_flag : Bool
  last_request_time : ℚ
deriving Repr

/-- External environment of one `process_request` invocation: the successive
`time.time()` readings, the generated UUID, success of the image download and
of the model call, the chunks the stream yields, whether pulling past the last
chunk raises, the aggregated `response.parts`, and whether the conversation
dump raises. -/
structure Env where
  clock : Nat → ℚ
  fresh_id : String
  image_fetch_ok : Bool
  model_call_ok : Bool
  chunks : List Chunk
  stream_error : Bool
  response_parts : List Part
  save_io_error : Bool

/-- Result of one `process_request` invocation: the mutated container, the
module state, the file system, the emitted events and whether an exception
propagated to the caller. -/
structure PRResult where
  rr : RequestResponseContainer
  st : ModuleState
  fs : FS
  events : List Event
  raised : Bool
deriving Repr

/-- The cool-down block (lines 155-164). `clock 0` is the reading in the
`if` condition; in the sleeping branch `clock 1` is the reading used only for
the logged wait estimate, `clock 2` the reading inside the `time.sleep`
argument and `clock 3` the timestamp written after the sleep; otherwise
`clock 1` is the timestamp written. Returns the new
`self._last_request_time.value` and the emitted events. -/
def cooldown_phase (cooldown_seconds last : ℚ) (clock : Nat → ℚ) : ℚ × List Event :=
  if clock 0 - last ≤ cooldown_seconds then
    (clock 3,
      [Event.sleep (last + cooldown_seconds - clock 2),
       Event.timestamp_update (clock 3)])
  else
    (clock 1, [Event.timestamp_update (clock 1)])

/-- Result of the chunk loop: the response accumulator, the partial-relay
events, the number of reads of `cancel_requested` performed, and whether the
loop exited through the `break`. -/
structure LoopResult where
  response : String
  events : List Event
  reads : Nat
  cancelled : Bool
deriving DecidableEq, Repr

/-- The chunk loop (lines 201-210): at the `k`-th read of `cancel_requested`
a `true` breaks before the chunk is processed; a chunk with no leading text
part is skipped; otherwise its text is appended to the accumulator and a
non-final message update is relayed. -/
def chunk_loop (cancel : Nat → Bool) : List Chunk → Nat → String → LoopResult
  | [], k, acc => ⟨acc, [], k, false⟩
  | c :: rest, k, acc =>
    if cancel k then ⟨acc, [], k + 1, true⟩
    else
      match c.first_part_text with
      | none => chunk_loop cancel rest (k + 1) acc
      | some t =>
        let r := chunk_loop cancel rest (k + 1) (acc ++ t)
        ⟨r.response, Event.relay (acc ++ t) false :: r.events, r.reads, r.cancelled⟩

/-- Events of an attempted conversation load: touching the file is skipped for
a `None` identifier. -/
def load_events (conversations_dir : String) (conversation_id : Option String) :
    List Event :=
  match conversation_id with
  | none => []
  | some cid => [Event.conv_read (conversation_file conversations_dir cid)]

/-- Events of an attempted conversation save: skipped for a `None` identifier. -/
def save_events (conversations_dir : String) (conversation_id : Option String) :
    List Event :=
  match conversation_id with
  | none => []
  | some cid => [Event.conv_write (conversation_file conversations_dir cid)]

/-- A normal exit of the `try` block: the `finally` clears `processing_flag`
and the final `end=True` message update is relayed (lines 226-230). -/
def finish_ok (last : ℚ) (rr : RequestResponseContainer) (fs : FS)
    (evs : List Event) : PRResult :=
  { rr := rr, st := ⟨true, false, last⟩, fs := fs,
    events := evs ++ [Event.relay rr.response true], raised := false }

/-- An exceptional exit: the `except` clears `_enabled` and re-raises, the
`finally` clears `processing_flag`, and no final update is relayed
(lines 222-227). -/
def finish_raised (last : ℚ) (rr : RequestResponseContainer) (fs : FS)
    (evs : List Event) : PRResult :=
  { rr := rr, st := ⟨false, false, last⟩, fs := fs, events := evs, raised := true }

/-- `process_request(request_response)` (lines 131-230). -/
def process_request (cfg : Config) (st : ModuleState) (fs : FS)
    (cancel : Nat → Bool) (env : Env) (rr : RequestResponseContainer) : PRResult :=
  if st.enabled = false then
    { rr := { rr with response := cfg.response_error rr.user.lang, error := true },
      st := { st with processing_flag := false },
      fs := fs, events := [], raised := false }
  else
    let c := cooldown_phase cfg.cooldown_seconds st.last_request_time env.clock
    let new_last := c.1
    let ev0 := c.2
    match rr.image_url with
    | some _ =>
      if env.image_fetch_ok then
        if env.model_call_ok then
          let lr := chunk_loop cancel env.chunks 0 rr.response
          let rr1 := { rr with response := lr.response }
          if env.stream_error = true ∧ lr.cancelled = false then
            finish_raised new_last rr1 fs (ev0 ++ [Event.model_call true] ++ lr.events)
          else
            finish_ok new_last rr1 fs (ev0 ++ [Event.model_call true] ++ lr.events)
        else finish_raised new_last rr fs (ev0 ++ [Event.model_call true])
      else finish_raised new_last rr fs ev0
    | none =>
      let conversation0 := load_or_empty fs cfg.conversations_dir rr.user.conversation_id
      let conversation_id1 : Option String :=
        match rr.user.conversation_id with
        | none => some env.fresh_id
        | some i => some i
      let conversation1 :=
        conversation0 ++ [Content.to_json ⟨"user", [⟨some rr.request, none⟩]⟩]
      let ev1 := ev0 ++ load_events cfg.conversations_dir rr.user.conversation_id
      if env.model_call_ok then
        let lr := chunk_loop cancel env.chunks 0 rr.response
        let rr1 := { rr with response := lr.response }
        if env.stream_error = true ∧ lr.cancelled = false then
          finish_raised new_last rr1 fs (ev1 ++ [Event.model_call false] ++ lr.events)
        else if cancel lr.reads then
          finish_ok new_last rr1 fs (ev1 ++ [Event.model_call false] ++ lr.events)
        else
          let conversation2 :=
            conversation1 ++ [Content.to_json ⟨"model", env.response_parts⟩]
          let s := _save_conversation fs cfg.conversations_dir conversation_id1
            conversation2 env.save_io_error
          let conversation_id2 := if s.2 then conversation_id1 else none
          let user2 : UserRec := { rr.user with conversation_id := conversation_id2 }
          let rr2 := { rr1 with user := user2 }
          finish_ok new_last rr2 s.1
            (ev1 ++ [Event.model_call false] ++ lr.events
              ++ save_events cfg.conversations_dir conversation_id1
              ++ [Event.save_user user2])
      else finish_raised new_last rr fs (ev1 ++ [Event.model_call false])

/-- Result of `initialize(proxy)` (lines 68-129): the repainted lifecycle
fields and whether the call raised. `_enabled`, `processing_flag` and
`cancel_requested` are unconditionally reset at lines 75-79; a module
disabled in the config or a client-setup failure leaves `_enabled` false and
re-raises. -/
structure InitResult where
  enabled : Bool
  processing_flag : Bool
  cancel_requested : Bool
  raised : Bool
deriving DecidableEq, Repr

/-- `initialize(proxy)` modelled on its lifecycle fields. -/
def init_module (module_enabled_in_config : Bool) (client_setup_ok : Bool) :
    InitResult :=
  if module_enabled_in_config = false then ⟨false, false, false, true⟩
  else if client_setup_ok = false then ⟨false, false, false, true⟩
  else ⟨true, false, false, false⟩

/-- The text contribution of one chunk to the response accumulator: its
leading text part, or nothing when the chunk is skipped. -/
def contrib (c : Chunk) : String := (Chunk.first_part_text c).getD ""

/-- The response accumulator after processing a list of chunks without
interruption. -/
def accum (acc : String) : List Chunk → String
  | [] => acc
  | c :: rest =>
    match c.first_part_text with
    | none => accum acc rest
    | some t => accum (acc ++ t) rest

/-- The non-final relays emitted while processing a list of chunks without
interruption. -/
def relay_trace (acc : String) : List Chunk → List Event
  | [] => []
  | c :: rest =>
    match c.first_part_text with
    | none => relay_trace acc rest
    | some t => Event.relay (acc ++ t) false :: relay_trace (acc ++ t) rest

theorem foldl_append_eq (l : List String) (s : String) :
    List.foldl (fun r t => r ++ t) s l = s ++ String.join l := by
  induction l generalizing s with
  | nil => simp [String.join]
  | cons a as ih =>
    show List.foldl (fun r t => r ++ t) (s ++ a) as = s ++ String.join (a :: as)
    rw [ih (s ++ a)]
    show s ++ a ++ String.join as = s ++ List.foldl (fun r t => r ++ t) ("" ++ a) as
    rw [ih ("" ++ a)]
    simp [String.append_assoc]

theorem join_cons (s : String) (l : List String) :
    String.join (s :: l) = s ++ String.join l := by
  show List.foldl (fun r t => r ++ t) ("" ++ s) l = s ++ String.join l
  rw [foldl_append_eq]
  simp

theorem accum_eq_join (cs : List Chunk) (acc : String) :
    accum acc cs = acc ++ String.join (cs.map contrib) := by
  induction cs generalizing acc with
  | nil => simp [accum, String.join]
  | cons c rest ih =>
    cases hft : c.first_part_text with
    | none =>
      simp only [accum, hft, List.map_cons, contrib, hft, Option.getD, join_cons]
      rw [ih]
      simp
    | some t =>
      simp only [accum, hft, List.map_cons, contrib, hft, Option.getD, join_cons]
      rw [ih]
      simp [String.append_assoc]

theorem relay_trace_relay_only (cs : List Chunk) (acc : String) :
    ∀ e ∈ relay_trace acc cs, Event.is_partial_relay e = true := by
  induction cs generalizing acc with
  | nil => intro e he; simp [relay_trace] at he
  | cons c rest ih =>
    intro e he
    cases hft : c.first_part_text with
    | none => rw [relay_trace, hft] at he; exact ih acc e he
    | some t =>
      rw [relay_trace, hft] at he
      rcases List.mem_cons.1 he with h | h
      · subst h; rfl
      · exact ih (acc ++ t) e h

theorem relay_trace_length (cs : List Chunk) (acc : String) :
    (relay_trace acc cs).length
      = (cs.filter (fun c => (Chunk.first_part_text c).isSome)).length := by
  induction cs generalizing acc with
  | nil => simp [relay_trace]
  | cons c rest ih =>
    cases hft : c.first_part_text with
    | none => rw [relay_trace, hft]; simp [List.filter_cons, hft, ih]
    | some t => rw [relay_trace, hft]; simp [List.filter_cons, hft, ih]

theorem chunk_loop_no_cancel (cancel : Nat → Bool) (hc : ∀ i, cancel i = false) :
    ∀ (cs : List Chunk) (k : Nat) (acc : String),
    chunk_loop cancel cs k acc = ⟨accum acc cs, relay_trace acc cs, k + cs.length, false⟩ := by
  intro cs
  induction cs with
  | nil => intro k acc; simp [chunk_loop, accum, relay_trace]
  | cons c rest ih =>
    intro k acc
    rw [chunk_loop, hc k]
    cases hft : c.first_part_text with
    | none =>
      simp only [Bool.false_eq_true, if_false, hft]
      rw [ih]
      simp only [accum, hft, relay_trace, List.length_cons]
      congr 1
      omega
    | some t =>
      simp only [Bool.false_eq_true, if_false, hft]
      rw [ih]
      simp only [accum, hft, relay_trace, List.length_cons]
      congr 1
      omega

theorem chunk_loop_cancel_at (cancel : Nat → Bool) :
    ∀ (cs : List Chunk) (N k : Nat) (acc : String),
    (∀ i, cancel (k + i) = decide (N ≤ i)) → N < cs.length →
    chunk_loop cancel cs k acc
      = ⟨accum acc (cs.take N), relay_trace acc (cs.take N), k + N + 1, true⟩ := by
  intro cs
  induction cs with
  | nil => intro N k acc _ hN; simp at hN
  | cons c rest ih =>
    intro N k acc hsched hN
    cases N with
    | zero =>
      have h0 : cancel k = true := by
        have := hsched 0
        simpa using this
      rw [chunk_loop, h0]
      simp [accum, relay_trace]
    | succ M =>
      have h0 : cancel k = false := by
        have := hsched 0
        simpa using this
      rw [chunk_loop, h0]
      have hsched2 : ∀ i, cancel (k + 1 + i) = decide (M ≤ i) := by
        intro i
        have := hsched (i + 1)
        rw [show k + (i + 1) = k + 1 + i by omega] at this
        rw [this]
        simp [Nat.succ_le_succ_iff]
      have hN2 : M < rest.length := by simpa using hN
      cases hft : c.first_part_text with
      | none =>
        simp only [Bool.false_eq_true, if_false, hft]
        rw [ih M (k + 1) acc hsched2 hN2]
        simp only [List.take_succ_cons, accum, hft, relay_trace]
        congr 1
        omega
      | some t =>
        simp only [Bool.false_eq_true, if_false, hft]
        rw [ih M (k + 1) (acc ++ t) hsched2 hN2]
        simp only [List.take_succ_cons, accum, hft, relay_trace]
        congr 1
        omega

theorem chunk_loop_events_relay_only (cancel : Nat → Bool) :
    ∀ (cs : List Chunk) (k : Nat) (acc : String),
    ∀ e ∈ (chunk_loop cancel cs k acc).events, Event.is_partial_relay e = true := by
  intro cs
  induction cs with
  | nil => intro k acc e he; simp [chunk_loop] at he
  | cons c rest ih =>
    intro k acc e he
    by_cases hk : cancel k = true
    · rw [chunk_loop, hk] at he; simp at he
    · rw [chunk_loop] at he
      rw [Bool.not_eq_true] at hk
      rw [hk] at he
      simp only [Bool.false_eq_true, if_false] at he
      cases hft : c.first_part_text with
      | none => rw [hft] at he; exact ih (k + 1) acc e he
      | some t =>
        rw [hft] at he
        rcases List.mem_cons.1 he with h | h
        · subst h; rfl
        · exact ih (k + 1) (acc ++ t) e h

theorem countEv_append (q : Event → Bool) (l1 l2 : List Event) :
    countEv q (l1 ++ l2) = countEv q l1 + countEv q l2 := by
  simp [countEv, List.filter_append]

theorem countEv_zero_of_relay_only (q : Event → Bool)
    (hq : ∀ s, q (Event.relay s false) = false) (l : List Event)
    (h : ∀ e ∈ l, Event.is_partial_relay e = true) : countEv q l = 0 := by
  induction l with
  | nil => rfl
  | cons a rest ih =>
    have hp := h a (List.mem_cons_self a rest)
    have hrest : ∀ e ∈ rest, Event.is_partial_relay e = true :=
      fun e he => h e (List.mem_cons_of_mem a he)
    have ha : q a = false := by
      cases a with
      | sleep d => simp [Event.is_partial_relay] at hp
      | timestamp_update t => simp [Event.is_partial_relay] at hp
      | conv_read f => simp [Event.is_partial_relay] at hp
      | model_call v => simp [Event.is_partial_relay] at hp
      | relay s e =>
        cases e with
        | true => simp [Event.is_partial_relay] at hp
        | false => exact hq s
      | conv_write f => simp [Event.is_partial_relay] at hp
      | conv_delete f => simp [Event.is_partial_relay] at hp
      | save_user u => simp [Event.is_partial_relay] at hp
    unfold countEv
    rw [List.filter_cons_of_neg (by simp [ha])]
    exact ih hrest

theorem fsLookup_fsWrite_self (fs : FS) (f : String) (d : FileData) :
    fsLookup (fsWrite fs f d) f = some d := by
  simp [fsWrite, fsLookup]

theorem fsLookup_fsErase_self (fs : FS) (f : String) :
    fsLookup (fsErase fs f) f = none := by
  induction fs with
  | nil => rfl
  | cons p rest ih =>
    by_cases hp : p.1 = f
    · simpa [fsErase, List.filter_cons, hp] using ih
    · simpa [fsErase, List.filter_cons, hp, fsLookup] using ih

/-- C2: on a not-enabled module, `process_request` returns without raising,
writes the localized error into the response, sets the error flag, leaves
`processing_flag` false, and attempts no model call, conversation I/O or
cooldown wait (no event at all is emitted) and leaves the file system and the
user record untouched. -/
theorem C2_disabled_reject (cfg : Config) (st : ModuleState) (fs : FS)
    (cancel : Nat → Bool) (env : Env) (rr : RequestResponseContainer)
    (hdis : st.enabled = false) :
    (process_request cfg st fs cancel env rr).rr.response
        = cfg.response_error rr.user.lang ∧
    (process_request cfg st fs cancel env rr).rr.error = true ∧
    (process_request cfg st fs cancel env rr).st.processing_flag = false ∧
    (process_request cfg st fs cancel env rr).raised = false ∧
    (process_request cfg st fs cancel env rr).events = [] ∧
    (process_request cfg st fs cancel env rr).fs = fs ∧
    (process_request cfg st fs cancel env rr).rr.user = rr.user := by
  simp [process_request, hdis]

theorem C2_disabled_reject_witness :
    let cfg : Config := ⟨"conv", 5, fun _ => "ERR"⟩
    let st : ModuleState := ⟨false, true, 0⟩
    let env : Env := ⟨fun i => (i : ℚ), "id", true, true, [], false, [], false⟩
    let rr : RequestResponseContainer := ⟨⟨0, none⟩, "hi", none, "", false⟩
    (process_request cfg st [] (fun _ => false) env rr).rr.response = "ERR" ∧
    (process_request cfg st [] (fun _ => false) env rr).st.processing_flag = false :=
  ⟨(C2_disabled_reject ⟨"conv", 5, fun _ => "ERR"⟩ ⟨false, true, 0⟩ []
      (fun _ => false) ⟨fun i => (i : ℚ), "id", true, true, [], false, [], false⟩
      ⟨⟨0, none⟩, "hi", none, "", false⟩ rfl).1,
   (C2_disabled_reject ⟨"conv", 5, fun _ => "ERR"⟩ ⟨false, true, 0⟩ []
      (fun _ => false) ⟨fun i => (i : ℚ), "id", true, true, [], false, [], false⟩
      ⟨⟨0, none⟩, "hi", none, "", false⟩ rfl).2.2.1⟩

theorem processing_flag_false (cfg : Config) (st : ModuleState) (fs : FS)
    (cancel : Nat → Bool) (env : Env) (rr : RequestResponseContainer) :
    (process_request cfg st fs cancel env rr).st.processing_flag = false := by
  unfold process_request finish_ok finish_raised
  dsimp only
  repeat' split
  all_goals rfl

/-- C3: on every exit path of `process_request` — normal completion,
cancellation, or an exception raised after the enabled check — the
`processing_flag` is false when control leaves; and a model-call failure on
an enabled module indeed propagates an exception. -/
theorem C3_processing_cleared (cfg : Config) (st : ModuleState) (fs : FS)
    (cancel : Nat → Bool) (env : Env) (rr : RequestResponseContainer) :
    (process_request cfg st fs cancel env rr).st.processing_flag = false ∧
    (st.enabled = true → env.model_call_ok = false →
      (process_request cfg st fs cancel env rr).raised = true) := by
  refine ⟨processing_flag_false cfg st fs cancel env rr, ?_⟩
  intro hen hmc
  unfold process_request finish_ok finish_raised
  rw [hen]
  cases himg : rr.image_url with
  | none => simp [hmc]
  | some u =>
    cases hifo : env.image_fetch_ok with
    | false => simp
    | true => simp [hmc]

theorem C3_processing_cleared_witness :
    let cfg : Config := ⟨"conv", 5, fun _ => "ERR"⟩
    let st : ModuleState := ⟨true, false, 0⟩
    let env : Env := ⟨fun i => (i : ℚ), "id", true, false, [], false, [], false⟩
    let rr : RequestResponseContainer := ⟨⟨0, none⟩, "hi", none, "", false⟩
    (process_request cfg st [] (fun _ => false) env rr).st.processing_flag = false ∧
    (process_request cfg st [] (fun _ => false) env rr).raised = true := by
  have h := C3_processing_cleared ⟨"conv", 5, fun _ => "ERR"⟩ ⟨true, false, 0⟩ []
    (fun _ => false) ⟨fun i => (i : ℚ), "id", true, false, [], false, [], false⟩
    ⟨⟨0, none⟩, "hi", none, "", false⟩
  exact ⟨h.1, h.2 rfl rfl⟩

/-- C5: saving a transcript and loading it back by the same identifier yields
the same ordered sequence of turns; an absent identifier, a missing file and
an unparseable file all degrade to the empty transcript (the store never
raises past this boundary: it is a total function). -/
theorem C5_save_load_roundtrip :
    (∀ (fs : FS) (dir cid : String) (doc : ConvDoc),
      _load_conversation (_save_conversation fs dir (some cid) doc false).1 dir
        (some cid) = some doc) ∧
    (∀ (fs : FS) (dir : String), load_or_empty fs dir none = []) ∧
    (∀ (fs : FS) (dir cid : String),
      fsLookup fs (conversation_file dir cid) = none →
      load_or_empty fs dir (some cid) = []) ∧
    (∀ (fs : FS) (dir cid : String),
      fsLookup fs (conversation_file dir cid) = some FileData.corrupt →
      load_or_empty fs dir (some cid) = []) := by
  refine ⟨?_, ?_, ?_, ?_⟩
  · intro fs dir cid doc
    simp [_save_conversation, _load_conversation, fsLookup_fsWrite_self]
  · intro fs dir
    rfl
  · intro fs dir cid h
    simp [load_or_empty, _load_conversation, h]
  · intro fs dir cid h
    simp [load_or_empty, _load_conversation, h]

theorem C5_save_load_roundtrip_witness :
    _load_conversation
        (_save_conversation [] "d" (some "c") [⟨"user", []⟩] false).1 "d" (some "c")
      = some [⟨"user", []⟩] ∧
    load_or_empty [] "d" none = [] ∧
    (fsLookup ([] : FS) (conversation_file "d" "c") = none ∧
      load_or_empty [] "d" (some "c") = []) ∧
    (fsLookup [(("d" ++ "/" ++ "c" ++ ".json" : String), FileData.corrupt)]
        (conversation_file "d" "c") = some FileData.corrupt ∧
      load_or_empty [(("d" ++ "/" ++ "c" ++ ".json" : String), FileData.corrupt)] "d"
        (some "c") = []) :=
  ⟨C5_save_load_roundtrip.1 [] "d" "c" [⟨"user", []⟩],
   C5_save_load_roundtrip.2.1 [] "d",
   ⟨rfl, C5_save_load_roundtrip.2.2.1 [] "d" "c" rfl⟩,
   ⟨by simp [conversation_file, fsLookup],
    C5_save_load_roundtrip.2.2.2 [(("d" ++ "/" ++ "c" ++ ".json" : String),
      FileData.corrupt)] "d" "c" (by simp [conversation_file, fsLookup])⟩⟩

/-- C8: clearing with no session identifier is a no-op; with an identifier it
removes the transcript file (absence of the file is not an error, and a second
clear is a no-op), nulls the identifier field and saves the user record. -/
theorem C8_clear_conversation (cfg : Config) (fs : FS) (user : UserRec)
    (io_error : Bool) :
    (user.conversation_id = none →
      clear_conversation_for_user cfg fs user io_error = (fs, user, [])) ∧
    (∀ cid, user.conversation_id = some cid → io_error = false →
      fsLookup (clear_conversation_for_user cfg fs user io_error).1
          (conversation_file cfg.conversations_dir cid) = none ∧
      (clear_conversation_for_user cfg fs user io_error).2.1
        = { user with conversation_id := none } ∧
      (clear_conversation_for_user cfg fs user io_error).2.2
        = [Event.conv_delete (conversation_file cfg.conversations_dir cid),
           Event.save_user { user with conversation_id := none }] ∧
      (∀ (fs2 : FS) (e2 : Bool),
        fsLookup fs2 (conversation_file cfg.conversations_dir cid) = none →
        _delete_conversation fs2 cfg.conversations_dir cid e2 = (fs2, true)) ∧
      clear_conversation_for_user cfg
          (clear_conversation_for_user cfg fs user io_error).1
          (clear_conversation_for_user cfg fs user io_error).2.1 io_error
        = ((clear_conversation_for_user cfg fs user io_error).1,
           (clear_conversation_for_user cfg fs user io_error).2.1, [])) := by
  constructor
  · intro h
    simp [clear_conversation_for_user, h]
  · intro cid hcid hio
    have hlookup : fsLookup (clear_conversation_for_user cfg fs user io_error).1
        (conversation_file cfg.conversations_dir cid) = none := by
      simp only [clear_conversation_for_user, hcid]
      cases hl : fsLookup fs (conversation_file cfg.conversations_dir cid) with
      | none => simp [_delete_conversation, hl]
      | some d =>
        simp [_delete_conversation, hl, hio, fsLookup_fsErase_self]
    refine ⟨hlookup, ?_, ?_, ?_, ?_⟩
    · simp [clear_conversation_for_user, hcid]
    · simp [clear_conversation_for_user, hcid]
    · intro fs2 e2 h2
      simp [_delete_conversation, h2]
    · have huser : (clear_conversation_for_user cfg fs user io_error).2.1
          = { user with conversation_id := none } := by
        simp [clear_conversation_for_user, hcid]
      rw [huser]
      simp [clear_conversation_for_user]

theorem C8_clear_conversation_witness :
    let cfg : Config := ⟨"d", 5, fun _ => "E"⟩
    let u0 : UserRec := ⟨0, none⟩
    let u1 : UserRec := ⟨0, some "c"⟩
    let fs1 : FS := [(("d" ++ "/" ++ "c" ++ ".json" : String), FileData.good [])]
    clear_conversation_for_user cfg fs1 u0 false = (fs1, u0, []) ∧
    fsLookup (clear_conversation_for_user cfg fs1 u1 false).1
        (conversation_file "d" "c") = none ∧
    (clear_conversation_for_user cfg fs1 u1 false).2.1 = ⟨0, none⟩ := by
  have h0 := (C8_clear_conversation ⟨"d", 5, fun _ => "E"⟩
    [(("d" ++ "/" ++ "c" ++ ".json" : String), FileData.good [])] ⟨0, none⟩ false).1 rfl
  have h1 := (C8_clear_conversation ⟨"d", 5, fun _ => "E"⟩
    [(("d" ++ "/" ++ "c" ++ ".json" : String), FileData.good [])] ⟨0, some "c"⟩ false).2
    "c" rfl rfl
  exact ⟨h0, h1.1, h1.2.1⟩

@[simp] theorem countEv_nil (q : Event → Bool) : countEv q [] = 0 := rfl

@[simp] theorem countEv_cons (q : Event → Bool) (e : Event) (l : List Event) :
    countEv q (e :: l) = (if q e = true then 1 else 0) + countEv q l := by
  simp only [countEv, List.filter_cons]
  split
  · simp [Nat.add_comm]
  · simp

theorem countEv_ts_cooldown (cd last : ℚ) (clock : Nat → ℚ) :
    countEv Event.is_ts_update (cooldown_phase cd last clock).2 = 1 := by
  unfold cooldown_phase
  split <;> simp [Event.is_ts_update]

theorem countEv_mc_cooldown (cd last : ℚ) (clock : Nat → ℚ) :
    countEv Event.is_model_call (cooldown_phase cd last clock).2 = 0 := by
  unfold cooldown_phase
  split <;> simp [Event.is_model_call]

theorem countEv_ts_chunk_loop (cancel : Nat → Bool) (cs : List Chunk) (k : Nat)
    (acc : String) :
    countEv Event.is_ts_update (chunk_loop cancel cs k acc).events = 0 :=
  countEv_zero_of_relay_only Event.is_ts_update (fun _ => rfl) _
    (chunk_loop_events_relay_only cancel cs k acc)

theorem countEv_mc_chunk_loop (cancel : Nat → Bool) (cs : List Chunk) (k : Nat)
    (acc : String) :
    countEv Event.is_model_call (chunk_loop cancel cs k acc).events = 0 :=
  countEv_zero_of_relay_only Event.is_model_call (fun _ => rfl) _
    (chunk_loop_events_relay_only cancel cs k acc)

theorem countEv_cw_chunk_loop (cancel : Nat → Bool) (cs : List Chunk) (k : Nat)
    (acc : String) :
    countEv Event.is_conv_write (chunk_loop cancel cs k acc).events = 0 :=
  countEv_zero_of_relay_only Event.is_conv_write (fun _ => rfl) _
    (chunk_loop_events_relay_only cancel cs k acc)

theorem countEv_cr_chunk_loop (cancel : Nat → Bool) (cs : List Chunk) (k : Nat)
    (acc : String) :
    countEv Event.is_conv_read (chunk_loop cancel cs k acc).events = 0 :=
  countEv_zero_of_relay_only Event.is_conv_read (fun _ => rfl) _
    (chunk_loop_events_relay_only cancel cs k acc)

theorem countEv_su_chunk_loop (cancel : Nat → Bool) (cs : List Chunk) (k : Nat)
    (acc : String) :
    countEv Event.is_save_user (chunk_loop cancel cs k acc).events = 0 :=
  countEv_zero_of_relay_only Event.is_save_user (fun _ => rfl) _
    (chunk_loop_events_relay_only cancel cs k acc)

theorem countEv_fr_chunk_loop (cancel : Nat → Bool) (cs : List Chunk) (k : Nat)
    (acc : String) :
    countEv Event.is_final_relay (chunk_loop cancel cs k acc).events = 0 :=
  countEv_zero_of_relay_only Event.is_final_relay (fun _ => rfl) _
    (chunk_loop_events_relay_only cancel cs k acc)

/-- The timestamp is written at least `cooldown_seconds` after the previous
timestamp, for any monotone clock whose post-sleep reading is at least the
sleep duration later than the pre-sleep reading. -/
theorem cooldown_phase_ge (cd last : ℚ) (clock : Nat → ℚ)
    (hmono01 : clock 0 ≤ clock 1) (hmono23 : clock 2 ≤ clock 3)
    (hsleep : 0 ≤ last + cd - clock 2 →
      clock 2 + (last + cd - clock 2) ≤ clock 3) :
    last + cd ≤ (cooldown_phase cd last clock).1 := by
  unfold cooldown_phase
  split
  · by_cases h2 : 0 ≤ last + cd - clock 2
    · have := hsleep h2
      simp only
      linarith
    · push_neg at h2
      simp only
      linarith
  · rename_i h
    push_neg at h
    simp only
    linarith

/-- On an enabled module the event trace decomposes as cooldown events
followed by a remainder that holds no further timestamp update; the cooldown
events hold exactly one timestamp update and no model call. -/
theorem ts_update_once (cfg : Config) (st : ModuleState) (fs : FS)
    (cancel : Nat → Bool) (env : Env) (rr : RequestResponseContainer)
    (hen : st.enabled = true) :
    ∃ post, (process_request cfg st fs cancel env rr).events
        = (cooldown_phase cfg.cooldown_seconds st.last_request_time env.clock).2
          ++ post ∧
      countEv Event.is_ts_update post = 0 := by
  have hlr := countEv_ts_chunk_loop cancel env.chunks 0 rr.response
  unfold process_request finish_ok finish_raised
  rw [if_neg (by simp [hen])]
  dsimp only
  cases himg : rr.image_url with
  | some u =>
    try dsimp only
    cases hifo : env.image_fetch_ok with
    | false =>
      exact ⟨[], by simp, by simp⟩
    | true =>
      try dsimp only
      cases hmco : env.model_call_ok with
      | false =>
        exact ⟨[Event.model_call true], by simp, by simp [Event.is_ts_update]⟩
      | true =>
        simp only [reduceIte]
        split
        · simp only [List.append_assoc, List.singleton_append]
          exact ⟨_, rfl, by simp [Event.is_ts_update, hlr]⟩
        · simp only [List.append_assoc, List.singleton_append]
          exact ⟨_, rfl, by simp [countEv_append, Event.is_ts_update, hlr]⟩
  | none =>
    try dsimp only
    cases hmco : env.model_call_ok with
    | false =>
      simp only [reduceIte, List.append_assoc, List.singleton_append]
      refine ⟨_, rfl, ?_⟩
      cases hcid : rr.user.conversation_id <;>
        simp [load_events, countEv_append, Event.is_ts_update]
    | true =>
      simp only [reduceIte]
      split
      · simp only [List.append_assoc, List.singleton_append]
        refine ⟨_, rfl, ?_⟩
        cases hcid : rr.user.conversation_id <;>
          simp [load_events, countEv_append, Event.is_ts_update, hlr]
      · split
        · simp only [List.append_assoc, List.singleton_append]
          refine ⟨_, rfl, ?_⟩
          cases hcid : rr.user.conversation_id <;>
            simp [load_events, countEv_append, Event.is_ts_update, hlr]
        · simp only [List.append_assoc, List.singleton_append]
          refine ⟨_, rfl, ?_⟩
          cases hcid : rr.user.conversation_id <;>
            simp [load_events, save_events, countEv_append, Event.is_ts_update, hlr]

/-- C4: for two consecutive invocations the instants at which the
last-request timestamp is written are at least `cooldown_seconds` apart
(given a monotone clock whose reading after `time.sleep(d)` with `d ≥ 0` is
at least `d` past the reading inside the sleep argument), and within one
enabled invocation the timestamp is updated exactly once, before any model
call is issued. -/
theorem C4_cooldown_separation (cd last0 : ℚ) (clock1 clock2 : Nat → ℚ)
    (h01 : clock2 0 ≤ clock2 1) (h23 : clock2 2 ≤ clock2 3)
    (hsleep : 0 ≤ (cooldown_phase cd last0 clock1).1 + cd - clock2 2 →
      clock2 2 + ((cooldown_phase cd last0 clock1).1 + cd - clock2 2) ≤ clock2 3)
    (cfg : Config) (st : ModuleState) (fs : FS) (cancel : Nat → Bool)
    (env : Env) (rr : RequestResponseContainer) (hen : st.enabled = true) :
    cd ≤ (cooldown_phase cd (cooldown_phase cd last0 clock1).1 clock2).1
          - (cooldown_phase cd last0 clock1).1 ∧
    countEv Event.is_ts_update (process_request cfg st fs cancel env rr).events = 1 ∧
    (∃ pre post, (process_request cfg st fs cancel env rr).events = pre ++ post ∧
      countEv Event.is_ts_update pre = 1 ∧ countEv Event.is_model_call pre = 0 ∧
      countEv Event.is_ts_update post = 0) := by
  obtain ⟨post, hpost, hcount⟩ := ts_update_once cfg st fs cancel env rr hen
  refine ⟨?_, ?_, ?_⟩
  · have h := cooldown_phase_ge cd (cooldown_phase cd last0 clock1).1 clock2 h01 h23 hsleep
    linarith
  · rw [hpost, countEv_append, hcount, countEv_ts_cooldown]
  · exact ⟨_, post, hpost, countEv_ts_cooldown _ _ _, countEv_mc_cooldown _ _ _, hcount⟩

theorem C4_cooldown_separation_witness :
    let clk1 : Nat → ℚ := fun i => (i : ℚ)
    let clk2 : Nat → ℚ := fun i => 100 + (i : ℚ)
    let cfg : Config := ⟨"conv", 5, fun _ => "ERR"⟩
    let st : ModuleState := ⟨true, false, 0⟩
    let env : Env := ⟨clk1, "id", true, true, [], false, [], false⟩
    let rr : RequestResponseContainer := ⟨⟨0, none⟩, "hi", none, "", false⟩
    (5 : ℚ) ≤ (cooldown_phase 5 (cooldown_phase 5 0 clk1).1 clk2).1
          - (cooldown_phase 5 0 clk1).1 ∧
    countEv Event.is_ts_update (process_request cfg st [] (fun _ => false) env rr).events
      = 1 := by
  have h := C4_cooldown_separation 5 0 (fun i => (i : ℚ)) (fun i => 100 + (i : ℚ))
    (by norm_num) (by norm_num) (by intro h; norm_num [cooldown_phase] at h ⊢)
    ⟨"conv", 5, fun _ => "ERR"⟩ ⟨true, false, 0⟩ [] (fun _ => false)
    ⟨fun i => (i : ℚ), "id", true, true, [], false, [], false⟩
    ⟨⟨0, none⟩, "hi", none, "", false⟩ rfl
  exact ⟨h.1, h.2.1⟩

theorem countEv_cr_cooldown (cd last : ℚ) (clock : Nat → ℚ) :
    countEv Event.is_conv_read (cooldown_phase cd last clock).2 = 0 := by
  unfold cooldown_phase
  split <;> simp [Event.is_conv_read]

theorem countEv_cw_cooldown (cd last : ℚ) (clock : Nat → ℚ) :
    countEv Event.is_conv_write (cooldown_phase cd last clock).2 = 0 := by
  unfold cooldown_phase
  split <;> simp [Event.is_conv_write]

theorem countEv_su_cooldown (cd last : ℚ) (clock : Nat → ℚ) :
    countEv Event.is_save_user (cooldown_phase cd last clock).2 = 0 := by
  unfold cooldown_phase
  split <;> simp [Event.is_save_user]

theorem countEv_fr_cooldown (cd last : ℚ) (clock : Nat → ℚ) :
    countEv Event.is_final_relay (cooldown_phase cd last clock).2 = 0 := by
  unfold cooldown_phase
  split <;> simp [Event.is_final_relay]

theorem countEv_pr_cooldown (cd last : ℚ) (clock : Nat → ℚ) :
    countEv Event.is_partial_relay (cooldown_phase cd last clock).2 = 0 := by
  unfold cooldown_phase
  split <;> simp [Event.is_partial_relay]

/-- C6: a request carrying an image URL neither reads nor writes any
conversation file, performs no user-record save, and leaves both the file
system and the user record (in particular its session-identifier field)
unchanged. -/
theorem C6_image_frame (cfg : Config) (st : ModuleState) (fs : FS)
    (cancel : Nat → Bool) (env : Env) (rr : RequestResponseContainer)
    (u : String) (himg : rr.image_url = some u) :
    (process_request cfg st fs cancel env rr).fs = fs ∧
    (process_request cfg st fs cancel env rr).rr.user = rr.user ∧
    countEv Event.is_conv_read (process_request cfg st fs cancel env rr).events = 0 ∧
    countEv Event.is_conv_write (process_request cfg st fs cancel env rr).events = 0 ∧
    countEv Event.is_save_user (process_request cfg st fs cancel env rr).events = 0 := by
  have h1 := countEv_cr_chunk_loop cancel env.chunks 0 rr.response
  have h2 := countEv_cw_chunk_loop cancel env.chunks 0 rr.response
  have h3 := countEv_su_chunk_loop cancel env.chunks 0 rr.response
  cases hen : st.enabled with
  | false => simp [process_request, hen]
  | true =>
    unfold process_request finish_ok finish_raised
    rw [if_neg (by simp [hen])]
    dsimp only
    rw [himg]
    dsimp only
    cases hifo : env.image_fetch_ok with
    | false =>
      simp [countEv_append, countEv_cr_cooldown, countEv_cw_cooldown, countEv_su_cooldown]
    | true =>
      cases hmco : env.model_call_ok with
      | false =>
        simp [countEv_append, countEv_cr_cooldown, countEv_cw_cooldown,
          countEv_su_cooldown, Event.is_conv_read, Event.is_conv_write,
          Event.is_save_user]
      | true =>
        simp only [reduceIte]
        split
        · simp [countEv_append, countEv_cr_cooldown, countEv_cw_cooldown,
            countEv_su_cooldown, Event.is_conv_read, Event.is_conv_write,
            Event.is_save_user, h1, h2, h3]
        · simp [countEv_append, countEv_cr_cooldown, countEv_cw_cooldown,
            countEv_su_cooldown, Event.is_conv_read, Event.is_conv_write,
            Event.is_save_user, h1, h2, h3]

theorem C6_image_frame_witness :
    let cfg : Config := ⟨"conv", 5, fun _ => "ERR"⟩
    let st : ModuleState := ⟨true, false, 0⟩
    let env : Env := ⟨fun i => (i : ℚ), "id", true, true, [⟨[⟨some "A", none⟩]⟩],
      false, [], false⟩
    let rr : RequestResponseContainer := ⟨⟨0, some "cid"⟩, "hi", some "http://x", "", false⟩
    (process_request cfg st [] (fun _ => false) env rr).fs = [] ∧
    (process_request cfg st [] (fun _ => false) env rr).rr.user = ⟨0, some "cid"⟩ := by
  have h := C6_image_frame ⟨"conv", 5, fun _ => "ERR"⟩ ⟨true, false, 0⟩ []
    (fun _ => false) ⟨fun i => (i : ℚ), "id", true, true, [⟨[⟨some "A", none⟩]⟩],
      false, [], false⟩ ⟨⟨0, some "cid"⟩, "hi", some "http://x", "", false⟩
    "http://x" rfl
  exact ⟨h.1, h.2.1⟩

/-- C7: on a non-cancelled text request whose conversation save fails, the
session identifier is nulled, the nulled identifier is written into the user
record, that record is handed to the user-record store, and the failure is
not raised; `_save_conversation` itself reports failure whenever the
identifier is `None`. -/
theorem C7_save_failure_nulls_id (cfg : Config) (st : ModuleState) (fs : FS)
    (cancel : Nat → Bool) (env : Env) (rr : RequestResponseContainer)
    (hen : st.enabled = true) (himg : rr.image_url = none)
    (hcancel : ∀ k, cancel k = false)
    (hmco : env.model_call_ok = true) (hserr : env.stream_error = false)
    (hio : env.save_io_error = true) :
    (process_request cfg st fs cancel env rr).rr.user.conversation_id = none ∧
    (process_request cfg st fs cancel env rr).rr.user
      = { rr.user with conversation_id := none } ∧
    Event.save_user { rr.user with conversation_id := none }
      ∈ (process_request cfg st fs cancel env rr).events ∧
    (process_request cfg st fs cancel env rr).raised = false ∧
    (∀ (fs2 : FS) (dir : String) (doc : ConvDoc) (e : Bool),
      (_save_conversation fs2 dir none doc e).2 = false) := by
  have hloop := chunk_loop_no_cancel cancel hcancel env.chunks 0 rr.response
  unfold process_request finish_ok finish_raised
  rw [if_neg (by simp [hen])]
  dsimp only
  rw [himg]
  dsimp only
  rw [hmco]
  simp only [reduceIte]
  rw [hloop]
  dsimp only
  simp only [hserr, hcancel, reduceIte]
  cases hcid : rr.user.conversation_id <;>
    simp [_save_conversation, hio, Event.is_save_user, List.mem_append]

theorem C7_save_failure_nulls_id_witness :
    let cfg : Config := ⟨"conv", 5, fun _ => "ERR"⟩
    let st : ModuleState := ⟨true, false, 0⟩
    let env : Env := ⟨fun i => (i : ℚ), "id", true, true, [⟨[⟨some "A", none⟩]⟩],
      false, [⟨some "A", none⟩], true⟩
    let rr : RequestResponseContainer := ⟨⟨0, some "cid"⟩, "hi", none, "", false⟩
    (process_request cfg st [] (fun _ => false) env rr).rr.user.conversation_id
        = none ∧
    (process_request cfg st [] (fun _ => false) env rr).raised = false := by
  have h := C7_save_failure_nulls_id ⟨"conv", 5, fun _ => "ERR"⟩ ⟨true, false, 0⟩ []
    (fun _ => false) ⟨fun i => (i : ℚ), "id", true, true, [⟨[⟨some "A", none⟩]⟩],
      false, [⟨some "A", none⟩], true⟩ ⟨⟨0, some "cid"⟩, "hi", none, "", false⟩
    rfl rfl (fun _ => rfl) rfl rfl rfl
  exact ⟨h.1, h.2.2.2.1⟩

theorem countEv_all_partial_length (l : List Event)
    (h : ∀ e ∈ l, Event.is_partial_relay e = true) :
    countEv Event.is_partial_relay l = l.length := by
  unfold countEv
  congr 1
  exact List.filter_eq_self.2 h

theorem countEv_pr_relay_trace (acc : String) (cs : List Chunk) :
    countEv Event.is_partial_relay (relay_trace acc cs)
      = (cs.filter (fun c => (Chunk.first_part_text c).isSome)).length := by
  rw [countEv_all_partial_length _ (relay_trace_relay_only cs acc), relay_trace_length]

theorem countEv_cw_relay_trace (acc : String) (cs : List Chunk) :
    countEv Event.is_conv_write (relay_trace acc cs) = 0 :=
  countEv_zero_of_relay_only Event.is_conv_write (fun _ => rfl) _
    (relay_trace_relay_only cs acc)

theorem countEv_su_relay_trace (acc : String) (cs : List Chunk) :
    countEv Event.is_save_user (relay_trace acc cs) = 0 :=
  countEv_zero_of_relay_only Event.is_save_user (fun _ => rfl) _
    (relay_trace_relay_only cs acc)

/-- C1: if `cancel_requested` becomes true after exactly `N` chunks have been
consumed (while the stream still has chunks), the loop stops at the next
read: the response accumulator is exactly the concatenation of the text of
the first `N` chunks (textless chunks contributing nothing), exactly one
non-final relay happened per texty chunk among those `N` (none after the
cancellation was observed), and no conversation write and no user-record
update happen for that request. -/
theorem C1_cancel_after_N_chunks (cfg : Config) (st : ModuleState) (fs : FS)
    (cancel : Nat → Bool) (env : Env) (rr : RequestResponseContainer) (N : Nat)
    (hen : st.enabled = true)
    (hfetch : env.image_fetch_ok = true) (hmco : env.model_call_ok = true)
    (hsched : ∀ i, cancel i = decide (N ≤ i))
    (hN : N < env.chunks.length)
    (hresp : rr.response = "") :
    (process_request cfg st fs cancel env rr).rr.response
      = String.join ((env.chunks.take N).map contrib) ∧
    countEv Event.is_partial_relay (process_request cfg st fs cancel env rr).events
      = ((env.chunks.take N).filter
          (fun c => (Chunk.first_part_text c).isSome)).length ∧
    (process_request cfg st fs cancel env rr).fs = fs ∧
    (process_request cfg st fs cancel env rr).rr.user = rr.user ∧
    countEv Event.is_conv_write (process_request cfg st fs cancel env rr).events = 0 ∧
    countEv Event.is_save_user (process_request cfg st fs cancel env rr).events = 0 := by
  have hsched0 : ∀ i, cancel (0 + i) = decide (N ≤ i) := by
    intro i
    simpa using hsched i
  have hloop := chunk_loop_cancel_at cancel env.chunks N 0 rr.response hsched0 hN
  have hacc : accum rr.response (List.take N env.chunks)
      = String.join ((env.chunks.take N).map contrib) := by
    rw [accum_eq_join, hresp]
    simp
  have hprc := countEv_pr_relay_trace rr.response (List.take N env.chunks)
  have hcanc : cancel (0 + N + 1) = true := by
    rw [hsched (0 + N + 1)]
    simp
  unfold process_request finish_ok finish_raised
  rw [if_neg (by simp [hen])]
  dsimp only
  cases himg : rr.image_url with
  | some u =>
    dsimp only
    rw [hfetch, hmco]
    simp only [reduceIte]
    rw [hloop]
    dsimp only
    simp only [Bool.true_eq_false, and_false, reduceIte]
    refine ⟨hacc, ?_, trivial, trivial, ?_, ?_⟩
    · simp [countEv_append, countEv_pr_cooldown, Event.is_partial_relay, hprc]
    · simp [countEv_append, countEv_cw_cooldown, Event.is_conv_write,
        countEv_cw_relay_trace]
    · simp [countEv_append, countEv_su_cooldown, Event.is_save_user,
        countEv_su_relay_trace]
  | none =>
    dsimp only
    rw [hmco]
    simp only [reduceIte]
    rw [hloop]
    dsimp only
    simp only [Bool.true_eq_false, and_false, reduceIte, hcanc]
    refine ⟨hacc, ?_, trivial, trivial, ?_, ?_⟩
    · cases hcid : rr.user.conversation_id <;>
        simp [load_events, countEv_append, countEv_pr_cooldown,
          Event.is_partial_relay, hprc]
    · cases hcid : rr.user.conversation_id <;>
        simp [load_events, countEv_append, countEv_cw_cooldown, Event.is_conv_write,
          countEv_cw_relay_trace]
    · cases hcid : rr.user.conversation_id <;>
        simp [load_events, countEv_append, countEv_su_cooldown, Event.is_save_user,
          countEv_su_relay_trace]

theorem C1_cancel_after_N_chunks_witness :
    let cfg : Config := ⟨"conv", 5, fun _ => "ERR"⟩
    let st : ModuleState := ⟨true, false, 0⟩
    let cs : List Chunk := [⟨[⟨some "A", none⟩]⟩, ⟨[⟨some "B", none⟩]⟩]
    let env : Env := ⟨fun i => (i : ℚ), "id", true, true, cs, false, [], false⟩
    let rr : RequestResponseContainer := ⟨⟨0, none⟩, "hi", none, "", false⟩
    let can : Nat → Bool := fun i => decide (1 ≤ i)
    (process_request cfg st [] can env rr).rr.response
      = String.join (List.map contrib (List.take 1 cs)) ∧
    (process_request cfg st [] can env rr).fs = [] ∧
    countEv Event.is_save_user (process_request cfg st [] can env rr).events = 0 := by
  have h := C1_cancel_after_N_chunks ⟨"conv", 5, fun _ => "ERR"⟩ ⟨true, false, 0⟩ []
    (fun i => decide (1 ≤ i))
    ⟨fun i => (i : ℚ), "id", true, true,
      [⟨[⟨some "A", none⟩]⟩, ⟨[⟨some "B", none⟩]⟩], false, [], false⟩
    ⟨⟨0, none⟩, "hi", none, "", false⟩ 1 rfl rfl rfl (fun i => rfl)
    (by decide) rfl
  exact ⟨h.1, h.2.2.1, h.2.2.2.2.2⟩

/-- C9 counterexample: an invocation on an enabled module whose model call
raises propagates the exception and relays no final (`end=True`) message
update, although it was not rejected on the not-enabled path — refuting the
claim that only not-enabled rejections skip the final update. -/
theorem C9_final_relay_cex :
    (⟨true, false, 0⟩ : ModuleState).enabled = true ∧
    (process_request ⟨"conv", 5, fun _ => "ERR"⟩ ⟨true, false, 0⟩ []
        (fun _ => false)
        ⟨fun _ => (0 : ℚ), "id", true, false, [], false, [], false⟩
        ⟨⟨0, none⟩, "hi", none, "", false⟩).raised = true ∧
    countEv Event.is_final_relay
      (process_request ⟨"conv", 5, fun _ => "ERR"⟩ ⟨true, false, 0⟩ []
        (fun _ => false)
        ⟨fun _ => (0 : ℚ), "id", true, false, [], false, [], false⟩
        ⟨⟨0, none⟩, "hi", none, "", false⟩).events = 0 := by
  refine ⟨rfl, ?_, ?_⟩
  · unfold process_request finish_raised
    rw [if_neg (by simp)]
    dsimp only
    rfl
  · unfold process_request finish_raised
    rw [if_neg (by simp)]
    dsimp only
    simp [load_events, countEv_append, countEv_fr_cooldown, Event.is_final_relay]

/-- C9 (amended): every invocation on an enabled module that does not
propagate an exception relays exactly one final message update, as the last
event; invocations rejected on the not-enabled path and invocations that
propagate an exception relay none. -/
theorem C9_final_relay_amended (cfg : Config) (st : ModuleState) (fs : FS)
    (cancel : Nat → Bool) (env : Env) (rr : RequestResponseContainer) :
    (st.enabled = false →
      countEv Event.is_final_relay (process_request cfg st fs cancel env rr).events
        = 0) ∧
    ((process_request cfg st fs cancel env rr).raised = true →
      countEv Event.is_final_relay (process_request cfg st fs cancel env rr).events
        = 0) ∧
    (st.enabled = true → (process_request cfg st fs cancel env rr).raised = false →
      countEv Event.is_final_relay (process_request cfg st fs cancel env rr).events
          = 1 ∧
      ∃ pre, (process_request cfg st fs cancel env rr).events
        = pre ++ [Event.relay (process_request cfg st fs cancel env rr).rr.response
            true]) := by
  have hfr := countEv_fr_chunk_loop cancel env.chunks 0 rr.response
  cases hen : st.enabled with
  | false => simp [process_request, hen]
  | true =>
    unfold process_request finish_ok finish_raised
    rw [if_neg (by simp [hen])]
    dsimp only
    cases himg : rr.image_url with
    | some u =>
      dsimp only
      cases hifo : env.image_fetch_ok with
      | false =>
        refine ⟨by simp, ?_, ?_⟩
        · intro _
          simp [countEv_append, countEv_fr_cooldown]
        · intro _ hco
          simp at hco
      | true =>
        try dsimp only
        cases hmco : env.model_call_ok with
        | false =>
          refine ⟨by simp, ?_, ?_⟩
          · intro _
            simp [countEv_append, countEv_fr_cooldown, Event.is_final_relay]
          · intro _ hco
            simp at hco
        | true =>
          simp only [reduceIte]
          split
          · refine ⟨by simp, ?_, ?_⟩
            · intro _
              simp [countEv_append, countEv_fr_cooldown, Event.is_final_relay, hfr]
            · intro _ hco
              simp at hco
          · refine ⟨by simp, by simp, ?_⟩
            intro _ _
            constructor
            · simp [countEv_append, countEv_fr_cooldown, Event.is_final_relay, hfr]
            · exact ⟨_, rfl⟩
    | none =>
      dsimp only
      cases hmco : env.model_call_ok with
      | false =>
        refine ⟨by simp, ?_, ?_⟩
        · intro _
          cases hcid : rr.user.conversation_id <;>
            simp [load_events, countEv_append, countEv_fr_cooldown,
              Event.is_final_relay]
        · intro _ hco
          simp at hco
      | true =>
        simp only [reduceIte]
        split
        · refine ⟨by simp, ?_, ?_⟩
          · intro _
            cases hcid : rr.user.conversation_id <;>
              simp [load_events, countEv_append, countEv_fr_cooldown,
                Event.is_final_relay, hfr]
          · intro _ hco
            simp at hco
        · split
          · refine ⟨by simp, by simp, ?_⟩
            intro _ _
            constructor
            · cases hcid : rr.user.conversation_id <;>
                simp [load_events, countEv_append, countEv_fr_cooldown,
                  Event.is_final_relay, hfr]
            · exact ⟨_, rfl⟩
          · refine ⟨by simp, by simp, ?_⟩
            intro _ _
            constructor
            · cases hcid : rr.user.conversation_id <;>
                simp [load_events, save_events, countEv_append, countEv_fr_cooldown,
                  Event.is_final_relay, hfr]
            · exact ⟨_, rfl⟩

theorem C9_final_relay_amended_witness :
    let cfg : Config := ⟨"conv", 5, fun _ => "ERR"⟩
    let st : ModuleState := ⟨true, false, 0⟩
    let env : Env := ⟨fun _ => (0 : ℚ), "id", true, true, [], false, [], false⟩
    let rr : RequestResponseContainer := ⟨⟨0, none⟩, "hi", none, "", false⟩
    countEv Event.is_final_relay
      (process_request cfg st [] (fun _ => false) env rr).events = 1 := by
  have h := (C9_final_relay_amended ⟨"conv", 5, fun _ => "ERR"⟩ ⟨true, false, 0⟩ []
    (fun _ => false) ⟨fun _ => (0 : ℚ), "id", true, true, [], false, [], false⟩
    ⟨⟨0, none⟩, "hi", none, "", false⟩).2.2 rfl rfl
  exact h.1

/-- C10 counterexample: an enabled invocation with `cancel_requested` already
true at entry whose model call fails propagates the exception and relays no
final (`end=True`) message update — refuting the claim's conclusion that a
final update is still relayed on every such call. -/
theorem C10_cancel_persistent_cex :
    (⟨true, false, 0⟩ : ModuleState).enabled = true ∧
    ((fun _ => true : Nat → Bool) 0 = true) ∧
    (process_request ⟨"conv", 5, fun _ => "ERR"⟩ ⟨true, false, 0⟩ []
        (fun _ => true)
        ⟨fun _ => (0 : ℚ), "id", true, false, [], false, [], false⟩
        ⟨⟨0, none⟩, "hi", none, "", false⟩).raised = true ∧
    countEv Event.is_final_relay
      (process_request ⟨"conv", 5, fun _ => "ERR"⟩ ⟨true, false, 0⟩ []
        (fun _ => true)
        ⟨fun _ => (0 : ℚ), "id", true, false, [], false, [], false⟩
        ⟨⟨0, none⟩, "hi", none, "", false⟩).events = 0 := by
  refine ⟨rfl, rfl, ?_, ?_⟩
  · unfold process_request finish_raised
    rw [if_neg (by simp)]
    dsimp only
    rfl
  · unfold process_request finish_raised
    rw [if_neg (by simp)]
    dsimp only
    simp [load_events, countEv_append, countEv_fr_cooldown, Event.is_final_relay]

/-- C10 (amended): `process_request` never writes `cancel_requested` (in the
model the flag is a read-only schedule; its resets appear only in
`init_module`, whose result always has the flag false — first conjunct). On
an enabled module, a request entered with the flag already true consumes zero
chunks on every path: the response accumulator, the user record and the file
system are unchanged, no conversation file is written and no partial relay
happens, and the last-request timestamp is still advanced (exactly one
update); whenever the invocation does not propagate an exception, a final
`end=True` update is still relayed. The conclusion holds for every such
request, hence for every subsequent one until a new initialization clears the
flag. -/
theorem C10_cancel_persistent_amended (cfg : Config) (st : ModuleState) (fs : FS)
    (cancel : Nat → Bool) (env : Env) (rr : RequestResponseContainer)
    (hen : st.enabled = true) (hcanc : ∀ k, cancel k = true) :
    (∀ (ce co : Bool), (init_module ce co).cancel_requested = false) ∧
    (process_request cfg st fs cancel env rr).rr.response = rr.response ∧
    (process_request cfg st fs cancel env rr).rr.user = rr.user ∧
    (process_request cfg st fs cancel env rr).fs = fs ∧
    countEv Event.is_conv_write (process_request cfg st fs cancel env rr).events
      = 0 ∧
    countEv Event.is_partial_relay (process_request cfg st fs cancel env rr).events
      = 0 ∧
    countEv Event.is_ts_update (process_request cfg st fs cancel env rr).events
      = 1 ∧
    (process_request cfg st fs cancel env rr).st.last_request_time
      = (cooldown_phase cfg.cooldown_seconds st.last_request_time env.clock).1 ∧
    ((process_request cfg st fs cancel env rr).raised = false →
      countEv Event.is_final_relay (process_request cfg st fs cancel env rr).events
        = 1) := by
  refine ⟨by intro ce co; cases ce <;> cases co <;> rfl, ?_⟩
  cases hcs : env.chunks with
  | nil =>
    have hloop : chunk_loop cancel ([] : List Chunk) 0 rr.response
        = ⟨rr.response, [], 0, false⟩ := rfl
    unfold process_request finish_ok finish_raised
    rw [if_neg (by simp [hen])]
    dsimp only
    cases himg : rr.image_url with
    | some u =>
      dsimp only
      cases hifo : env.image_fetch_ok with
      | false =>
        simp [countEv_append, countEv_cw_cooldown, countEv_pr_cooldown,
          countEv_ts_cooldown, Event.is_conv_write, Event.is_partial_relay,
          Event.is_ts_update]
      | true =>
        try dsimp only
        cases hmco : env.model_call_ok with
        | false =>
          simp [countEv_append, countEv_cw_cooldown, countEv_pr_cooldown,
            countEv_ts_cooldown, Event.is_conv_write, Event.is_partial_relay,
            Event.is_ts_update]
        | true =>
          simp only [reduceIte]
          rw [hcs, hloop]
          dsimp only
          cases hserr : env.stream_error with
          | true =>
            simp [countEv_append, countEv_cw_cooldown, countEv_pr_cooldown,
              countEv_ts_cooldown, Event.is_conv_write, Event.is_partial_relay,
              Event.is_ts_update]
          | false =>
            simp [countEv_append, countEv_cw_cooldown, countEv_pr_cooldown,
              countEv_ts_cooldown, countEv_fr_cooldown, Event.is_conv_write,
              Event.is_partial_relay, Event.is_ts_update, Event.is_final_relay]
    | none =>
      dsimp only
      cases hmco : env.model_call_ok with
      | false =>
        cases hcid : rr.user.conversation_id <;>
          simp [load_events, countEv_append, countEv_cw_cooldown,
            countEv_pr_cooldown, countEv_ts_cooldown, Event.is_conv_write,
            Event.is_partial_relay, Event.is_ts_update]
      | true =>
        simp only [reduceIte]
        rw [hcs, hloop]
        dsimp only
        cases hserr : env.stream_error with
        | true =>
          cases hcid : rr.user.conversation_id <;>
            simp [load_events, countEv_append, countEv_cw_cooldown,
              countEv_pr_cooldown, countEv_ts_cooldown, Event.is_conv_write,
              Event.is_partial_relay, Event.is_ts_update]
        | false =>
          simp only [hserr, Bool.false_eq_true, false_and, reduceIte, hcanc]
          cases hcid : rr.user.conversation_id <;>
            simp [load_events, countEv_append, countEv_cw_cooldown,
              countEv_pr_cooldown, countEv_ts_cooldown, countEv_fr_cooldown,
              Event.is_conv_write, Event.is_partial_relay, Event.is_ts_update,
              Event.is_final_relay]
  | cons c rest =>
    have hloop : chunk_loop cancel (c :: rest) 0 rr.response
        = ⟨rr.response, [], 1, true⟩ := by
      rw [chunk_loop, hcanc 0]
      simp
    unfold process_request finish_ok finish_raised
    rw [if_neg (by simp [hen])]
    dsimp only
    cases himg : rr.image_url with
    | some u =>
      dsimp only
      cases hifo : env.image_fetch_ok with
      | false =>
        simp [countEv_append, countEv_cw_cooldown, countEv_pr_cooldown,
          countEv_ts_cooldown, Event.is_conv_write, Event.is_partial_relay,
          Event.is_ts_update]
      | true =>
        try dsimp only
        cases hmco : env.model_call_ok with
        | false =>
          simp [countEv_append, countEv_cw_cooldown, countEv_pr_cooldown,
            countEv_ts_cooldown, Event.is_conv_write, Event.is_partial_relay,
            Event.is_ts_update]
        | true =>
          simp only [reduceIte]
          rw [hcs, hloop]
          dsimp only
          simp only [Bool.true_eq_false, and_false, reduceIte]
          simp [countEv_append, countEv_cw_cooldown, countEv_pr_cooldown,
            countEv_ts_cooldown, countEv_fr_cooldown, Event.is_conv_write,
            Event.is_partial_relay, Event.is_ts_update, Event.is_final_relay]
    | none =>
      dsimp only
      cases hmco : env.model_call_ok with
      | false =>
        cases hcid : rr.user.conversation_id <;>
          simp [load_events, countEv_append, countEv_cw_cooldown,
            countEv_pr_cooldown, countEv_ts_cooldown, Event.is_conv_write,
            Event.is_partial_relay, Event.is_ts_update]
      | true =>
        simp only [reduceIte]
        rw [hcs, hloop]
        dsimp only
        simp only [Bool.true_eq_false, and_false, reduceIte, hcanc]
        cases hcid : rr.user.conversation_id <;>
          simp [load_events, countEv_append, countEv_cw_cooldown,
            countEv_pr_cooldown, countEv_ts_cooldown, countEv_fr_cooldown,
            Event.is_conv_write, Event.is_partial_relay, Event.is_ts_update,
            Event.is_final_relay]

theorem C10_cancel_persistent_amended_witness :
    let cfg : Config := ⟨"conv", 5, fun _ => "ERR"⟩
    let st : ModuleState := ⟨true, false, 0⟩
    let env : Env := ⟨fun _ => (0 : ℚ), "id", true, true, [⟨[⟨some "A", none⟩]⟩],
      false, [], false⟩
    let rr : RequestResponseContainer := ⟨⟨0, some "cid"⟩, "hi", none, "", false⟩
    (init_module true true).cancel_requested = false ∧
    (process_request cfg st [] (fun _ => true) env rr).rr.response = "" ∧
    (process_request cfg st [] (fun _ => true) env rr).rr.user = ⟨0, some "cid"⟩ ∧
    countEv Event.is_ts_update
      (process_request cfg st [] (fun _ => true) env rr).events = 1 := by
  have h := C10_cancel_persistent_amended ⟨"conv", 5, fun _ => "ERR"⟩
    ⟨true, false, 0⟩ [] (fun _ => true)
    ⟨fun _ => (0 : ℚ), "id", true, true, [⟨[⟨some "A", none⟩]⟩], false, [], false⟩
    ⟨⟨0, some "cid"⟩, "hi", none, "", false⟩ rfl (fun _ => rfl)
  exact ⟨h.1 true true, h.2.1, h.2.2.1, h.2.2.2.2.2.2.1⟩

end GoogleAI
